import Mathlib

/-!
Shallow embedding of the lineup bot's reaction cog (`cogs/reactions.py`):
the roster state, the anchor registry, the display-message synchronizer and
the reaction/message event handlers.  Platform I/O (channel lookups, message
fetches, sends, edits, reaction calls) is modelled by an explicit environment
of boolean/function oracles, and each operation returns the list of platform
effects it performed alongside the new state.
-/

/-- Configured target role ids (`self.target_role_ids` in `__init__`). -/
def target_role_ids : List Nat :=
  [776328568036392972, 1282865161945874543, 1416872124236431490]

/-- Configured roster capacity (`self.max_participants = 5`). -/
def max_participants : Nat := 5

/-- Shape of the configured reaction emoji: a custom-emoji numeric id or a
unicode string (`self.reaction_emoji`). -/
inductive ExpectedEmoji where
  | custom (id : Nat)
  | unicode (s : String)

/-- An observed emoji object as the platform delivers it: optional custom id
(`getattr(e, "id", None)`), optional short name (`getattr(e, "name", None)`),
and its full string rendering (`str(e)`). -/
structure EmojiObj where
  id : Option Nat
  name : Option String
  strForm : String
deriving DecidableEq

/-- The configured emoji, `self.reaction_emoji = "✅"`. -/
def reaction_emoji : ExpectedEmoji := .unicode "✅"

/-- Embeds `_emoji_matches(emoji_obj, expect)`. -/
def emoji_matches (e : EmojiObj) (expect : ExpectedEmoji) : Bool :=
  match expect with
  | .custom i => e.id == some i
  | .unicode s => e.name == some s || e.strForm == s

/-- The cog's mutable state: join-ordered participant ids, the id → display
name mapping (a Python dict, modelled as an association list whose keys stay
unique because insertion is guarded by absence), the recorded lineup display
message identity, and the anchor set (a Python set, modelled as a
duplicate-free list). -/
structure CogState where
  participants_order : List Nat
  participants_names : List (Nat × String)
  lineup_channel_id : Option Nat
  lineup_message_id : Option Nat
  anchor_messages : List (Nat × Nat)
deriving DecidableEq

/-- Dict key membership `user_id in self.participants_names`. -/
def names_contains (ns : List (Nat × String)) (uid : Nat) : Bool :=
  ns.any (fun p => p.1 == uid)

/-- Dict lookup `self.participants_names[uid]` (total in the code because the
order list's ids are always keys; absent keys default to `""` here). -/
def names_get (ns : List (Nat × String)) (uid : Nat) : String :=
  match ns.find? (fun p => p.1 == uid) with
  | some p => p.2
  | none => ""

/-- Embeds `_add_user`: refuse when the id is already a key of the name dict
or the order list is at capacity; otherwise append the id and record the
name.  Returns the Python method's boolean along with the updated state. -/
def add_user (c : CogState) (uid : Nat) (dname : String) : Bool × CogState :=
  if names_contains c.participants_names uid then (false, c)
  else if c.participants_order.length ≥ max_participants then (false, c)
  else
    (true,
      { c with
        participants_order := c.participants_order ++ [uid]
        participants_names := c.participants_names ++ [(uid, dname)] })

/-- Embeds `_remove_user`: refuse when the id is not a key of the name dict;
otherwise drop the first occurrence from the order list (`list.remove`) and
delete the key from the dict (`dict.pop`; on the reachable duplicate-free
association lists the filter below removes exactly that one entry). -/
def remove_user (c : CogState) (uid : Nat) : Bool × CogState :=
  if names_contains c.participants_names uid then
    (true,
      { c with
        participants_order := c.participants_order.erase uid
        participants_names := c.participants_names.filter (fun p => p.1 != uid) })
  else (false, c)

/-- The empty-roster rendering of `_lineup_text`. -/
def empty_lineup_text : String := "📭 **Lineup is empty.** React with ✅ to join."

/-- The header computed inside `_lineup_text`: plain, or the READY form with a
mention of every participant in order when the roster is at capacity. -/
def lineup_header (c : CogState) : String :=
  if c.participants_order.length == max_participants then
    "📋 **Current Lineup (READY)** — " ++
      String.intercalate " "
        (c.participants_order.map (fun uid => "<@" ++ toString uid ++ ">"))
  else "📋 **Current Lineup**"

/-- The numbered body of `_lineup_text`: the stored display names in join
order, 1-indexed. -/
def lineup_body (c : CogState) : String :=
  String.intercalate "\n"
    (((c.participants_order.map (names_get c.participants_names)).enum).map
      (fun p => toString (p.1 + 1) ++ ". " ++ p.2))

/-- Embeds `_lineup_text`. -/
def lineup_text (c : CogState) : String :=
  if c.participants_order = [] then empty_lineup_text
  else lineup_header c ++ "\n" ++ lineup_body c

/-- Embeds `_is_anchor`. -/
def is_anchor (c : CogState) (channel_id message_id : Nat) : Bool :=
  c.anchor_messages.contains (channel_id, message_id)

/-- A single abstract add/remove roster operation, for stating the
all-sequences invariant. -/
inductive RosterOp where
  | add (uid : Nat) (dname : String)
  | remove (uid : Nat)

/-- State reached by one roster operation (discarding the returned boolean). -/
def apply_op (c : CogState) : RosterOp → CogState
  | .add uid dname => (add_user c uid dname).2
  | .remove uid => (remove_user c uid).2

/-- State reached by a sequence of roster operations. -/
def apply_ops (c : CogState) (ops : List RosterOp) : CogState :=
  ops.foldl apply_op c

/-- The roster as the cog initialises it: both structures empty. -/
def empty_roster : CogState :=
  { participants_order := []
    participants_names := []
    lineup_channel_id := none
    lineup_message_id := none
    anchor_messages := [] }

/-- The roster invariant of the spec's data model: no duplicate id, bounded
length, and membership agreement between the order list and the name dict. -/
def RosterInv (c : CogState) : Prop :=
  c.participants_order.Nodup ∧
  c.participants_order.length ≤ max_participants ∧
  ∀ uid : Nat, uid ∈ c.participants_order ↔ names_contains c.participants_names uid = true

lemma names_contains_append_iff (ns : List (Nat × String)) (uid x : Nat) (d : String) :
    names_contains (ns ++ [(uid, d)]) x = true ↔
      (names_contains ns x = true ∨ x = uid) := by
  simp only [names_contains, List.any_append, List.any_cons, List.any_nil,
    Bool.or_false, Bool.or_eq_true, beq_iff_eq]
  aesop

lemma names_contains_filter_iff (ns : List (Nat × String)) (uid x : Nat) :
    names_contains (ns.filter (fun p => p.1 != uid)) x = true ↔
      (names_contains ns x = true ∧ x ≠ uid) := by
  simp only [names_contains, List.any_eq_true, List.mem_filter, bne_iff_ne, ne_eq,
    beq_iff_eq]
  aesop

lemma add_user_preserves_inv (c : CogState) (uid : Nat) (d : String)
    (h : RosterInv c) : RosterInv (add_user c uid d).2 := by
  obtain ⟨hnd, hlen, hiff⟩ := h
  by_cases hc : names_contains c.participants_names uid = true
  · simpa [add_user, hc] using ⟨hnd, hlen, hiff⟩
  · by_cases hl : c.participants_order.length ≥ max_participants
    · simpa [add_user, hc, hl] using ⟨hnd, hlen, hiff⟩
    · have hnotmem : uid ∉ c.participants_order := fun hm => hc ((hiff uid).mp hm)
      have hstate : (add_user c uid d).2 =
          { c with
            participants_order := c.participants_order ++ [uid]
            participants_names := c.participants_names ++ [(uid, d)] } := by
        simp [add_user, hc, hl]
      rw [hstate]
      refine ⟨?_, ?_, ?_⟩
      · simp [List.nodup_append, hnd, hnotmem]
      · simp only [List.length_append, List.length_singleton]
        omega
      · intro x
        simp only [List.mem_append, List.mem_singleton, names_contains_append_iff,
          hiff x]

lemma remove_user_preserves_inv (c : CogState) (uid : Nat)
    (h : RosterInv c) : RosterInv (remove_user c uid).2 := by
  obtain ⟨hnd, hlen, hiff⟩ := h
  by_cases hc : names_contains c.participants_names uid = true
  · refine ⟨?_, ?_, ?_⟩ <;> simp only [remove_user, hc, if_pos]
    · exact hnd.erase uid
    · exact le_trans (List.Sublist.length_le (List.erase_sublist uid c.participants_order)) hlen
    · intro x
      rw [hnd.mem_erase_iff, names_contains_filter_iff, ← hiff x]
      tauto
  · simpa [remove_user, hc] using ⟨hnd, hlen, hiff⟩

lemma apply_ops_preserves_inv (ops : List RosterOp) :
    ∀ c : CogState, RosterInv c → RosterInv (apply_ops c ops) := by
  induction ops with
  | nil => intro c h; simpa [apply_ops] using h
  | cons op rest ih =>
    intro c h
    have hstep : RosterInv (apply_op c op) := by
      cases op with
      | add uid d => exact add_user_preserves_inv c uid d h
      | remove uid => exact remove_user_preserves_inv c uid h
    simpa [apply_ops, List.foldl_cons] using ih (apply_op c op) hstep

/-- C1: every sequence of add (`_add_user`) and remove (`_remove_user`)
operations starting from the empty roster keeps the order list
duplicate-free, keeps its length within the configured maximum (5), and keeps
the order list and the name mapping in membership agreement. -/
theorem roster_invariant_all_sequences (ops : List RosterOp) :
    (apply_ops empty_roster ops).participants_order.Nodup ∧
    (apply_ops empty_roster ops).participants_order.length ≤ max_participants ∧
    max_participants = 5 ∧
    (∀ uid : Nat,
      uid ∈ (apply_ops empty_roster ops).participants_order ↔
        names_contains (apply_ops empty_roster ops).participants_names uid = true) := by
  have h := apply_ops_preserves_inv ops empty_roster
    (by refine ⟨?_, ?_, ?_⟩ <;> simp [empty_roster, names_contains, max_participants])
  exact ⟨h.1, h.2.1, rfl, h.2.2⟩

/-- C5: the tryAdd contract — a no-op returning false when the id is present
or the roster is at capacity, otherwise an append-and-record returning true;
and a second immediate call with the same id always returns false leaving the
state as it was after the first call. -/
theorem add_user_contract (c : CogState) (uid : Nat) (dname : String) :
    (add_user c uid dname =
      if (names_contains c.participants_names uid ||
          decide (c.participants_order.length ≥ max_participants)) then
        (false, c)
      else
        (true,
          { c with
            participants_order := c.participants_order ++ [uid]
            participants_names := c.participants_names ++ [(uid, dname)] })) ∧
    add_user (add_user c uid dname).2 uid dname = (false, (add_user c uid dname).2) := by
  by_cases hc : names_contains c.participants_names uid = true
  · constructor
    · simp [add_user, hc]
    · simp [add_user, hc]
  · by_cases hl : c.participants_order.length ≥ max_participants
    · constructor
      · simp [add_user, hc, hl]
      · simp [add_user, hc, hl]
    · have hsecond : names_contains (c.participants_names ++ [(uid, dname)]) uid = true :=
        (names_contains_append_iff c.participants_names uid uid dname).mpr (Or.inr rfl)
      constructor
      · simp [add_user, hc, hl]
      · simp [add_user, hc, hl, hsecond]

/-- C6: the tryRemove contract — a no-op returning false when the id is
absent, otherwise deletion from both the order list and the name mapping
returning true; the surviving order list is a sublist of the original
(relative order preserved), the id is never a key of the resulting name
mapping, and on a duplicate-free roster the id is gone from the order list. -/
theorem remove_user_contract (c : CogState) (uid : Nat) :
    (remove_user c uid =
      if names_contains c.participants_names uid then
        (true,
          { c with
            participants_order := c.participants_order.erase uid
            participants_names := c.participants_names.filter (fun p => p.1 != uid) })
      else (false, c)) ∧
    ((remove_user c uid).2.participants_order.Sublist c.participants_order) ∧
    (names_contains c.participants_names uid = true →
      names_contains (remove_user c uid).2.participants_names uid = false) ∧
    (names_contains c.participants_names uid = true →
      c.participants_order.Nodup →
      uid ∉ (remove_user c uid).2.participants_order) := by
  by_cases hc : names_contains c.participants_names uid = true
  · refine ⟨by simp [remove_user, hc], ?_, ?_, ?_⟩
    · simp only [remove_user, hc, if_pos]
      exact List.erase_sublist uid c.participants_order
    · intro _
      simp only [remove_user, hc, if_pos]
      have := names_contains_filter_iff c.participants_names uid uid
      rcases h : names_contains (c.participants_names.filter (fun p => p.1 != uid)) uid with _ | _
      · rfl
      · exact absurd (this.mp h).2 (by simp)
    · intro _ hnd
      simp only [remove_user, hc, if_pos]
      intro hm
      exact absurd (hnd.mem_erase_iff.mp hm).1 (by simp)
  · refine ⟨by simp [remove_user, hc], ?_, ?_, ?_⟩
    · simp [remove_user, hc]
    · intro habs; exact absurd habs hc
    · intro habs; exact absurd habs hc

/-- A sample populated roster used by witnesses: two members, consistent. -/
def sample_roster : CogState :=
  { participants_order := [1, 2]
    participants_names := [(1, "alice"), (2, "bob")]
    lineup_channel_id := none
    lineup_message_id := none
    anchor_messages := [] }

/-- Witness for C6 at a concrete roster: the id 1 is present, the order list
is duplicate-free, and after removal 1 is gone from the order list. -/
theorem remove_user_contract_witness :
    names_contains sample_roster.participants_names 1 = true ∧
    sample_roster.participants_order.Nodup ∧
    1 ∉ (remove_user sample_roster 1).2.participants_order :=
  ⟨by decide, by decide,
    (remove_user_contract sample_roster 1).2.2.2 (by decide) (by decide)⟩

/-- C7: the render contract — the empty-state text on an empty roster, the
1-indexed numbered list of stored names in join order otherwise, and a header
in the READY form (mentioning every participant in order) exactly when the
roster size equals the capacity, never for a smaller size. -/
theorem lineup_text_contract (c : CogState) :
    (c.participants_order = [] →
      lineup_text c = "📭 **Lineup is empty.** React with ✅ to join.") ∧
    (c.participants_order ≠ [] →
      lineup_text c = lineup_header c ++ "\n" ++
        String.intercalate "\n"
          (((c.participants_order.map (names_get c.participants_names)).enum).map
            (fun p => toString (p.1 + 1) ++ ". " ++ p.2))) ∧
    ((lineup_header c =
        "📋 **Current Lineup (READY)** — " ++
          String.intercalate " "
            (c.participants_order.map (fun uid => "<@" ++ toString uid ++ ">"))) ↔
      c.participants_order.length = max_participants) ∧
    (c.participants_order.length ≠ max_participants →
      lineup_header c = "📋 **Current Lineup**") := by
  refine ⟨?_, ?_, ?_, ?_⟩
  · intro h; simp [lineup_text, h, empty_lineup_text]
  · intro h; simp [lineup_text, h, lineup_body]
  · by_cases hlen : c.participants_order.length = max_participants
    · simp [lineup_header, hlen]
    · constructor
      · intro habs
        have hplain : lineup_header c = "📋 **Current Lineup**" := by
          simp [lineup_header, hlen]
        rw [hplain] at habs
        have hlenstr := congrArg String.length habs
        rw [String.length_append] at hlenstr
        have h1 : ("📋 **Current Lineup**" : String).length = 20 := by decide
        have h2 : ("📋 **Current Lineup (READY)** — " : String).length = 31 := by decide
        omega
      · intro habs; exact absurd habs hlen
  · intro hlen; simp [lineup_header, hlen]

/-- Witness for C7 at concrete rosters: the empty roster renders the
empty-state text, and the sample two-member roster renders the plain header
with the numbered list. -/
theorem lineup_text_contract_witness :
    lineup_text empty_roster = "📭 **Lineup is empty.** React with ✅ to join." ∧
    lineup_text sample_roster =
      "📋 **Current Lineup**" ++ "\n" ++
        String.intercalate "\n"
          (((sample_roster.participants_order.map
              (names_get sample_roster.participants_names)).enum).map
            (fun p => toString (p.1 + 1) ++ ". " ++ p.2)) :=
  ⟨(lineup_text_contract empty_roster).1 (by decide),
    by
      rw [(lineup_text_contract sample_roster).2.1 (by decide),
        (lineup_text_contract sample_roster).2.2.2 (by decide)]⟩

/-- Observable platform calls a handler performs, in order: sending a message
(with the allocated id), successfully editing a message, the transient
"lineup full" notice (a channel send whose result is discarded), emitting the
bot's reaction, retracting one of the bot's reactions, deferring the slash
command's response, and finalising it with confirmation text. -/
inductive Effect where
  | send (channel msg : Nat) (text : String)
  | editMsg (channel msg : Nat) (text : String)
  | notice (channel : Nat) (text : String)
  | addReaction (channel msg : Nat)
  | removeReaction (channel msg : Nat)
  | deferResponse
  | confirm (text : String)
deriving DecidableEq

/-- System state threaded through the handlers: the cog plus a fresh
message-id allocator standing in for the platform's id generation for newly
sent messages. -/
structure Sys where
  cog : CogState
  fresh : Nat
deriving DecidableEq

/-- The platform environment: whether `bot.get_channel` finds a channel,
whether `fetch_message` / `edit` / `add_reaction` succeed, whether
`bot.get_guild` finds a guild, a guild member's display name when cached, and
a fetched message's current reaction emojis. -/
structure Env where
  channel_exists : Nat → Bool
  fetch_ok : Nat → Nat → Bool
  edit_ok : Nat → Nat → Bool
  guild_exists : Nat → Bool
  member_display : Nat → Nat → Option String
  add_reaction_ok : Nat → Nat → Bool
  message_reactions : Nat → Nat → List EmojiObj

/-- Embeds `_ensure_lineup_message`: keep the stored display message when
both stored ids are truthy (set and nonzero), the stored channel resolves and
the fetch succeeds; otherwise send a fresh lineup message to `channel` and
record its identity. -/
def ensure_lineup_message (env : Env) (s : Sys) (channel : Nat) : Sys × List Effect :=
  if (match s.cog.lineup_channel_id, s.cog.lineup_message_id with
      | some c, some m => c != 0 && m != 0 && env.channel_exists c && env.fetch_ok c m
      | _, _ => false) then
    (s, [])
  else
    ({ cog :=
        { s.cog with
          lineup_channel_id := some channel
          lineup_message_id := some s.fresh }
       fresh := s.fresh + 1 },
     [Effect.send channel s.fresh (lineup_text s.cog)])

/-- The tail of `_update_lineup_message` after its `_ensure_lineup_message`
call: bail out if the stored channel no longer resolves or the stored message
id is falsy, otherwise fetch and edit, falling back to send-and-record when
the fetch or the edit raises. -/
def update_lineup_rest (env : Env) (s : Sys) (channel : Nat) : Sys × List Effect :=
  match s.cog.lineup_channel_id, s.cog.lineup_message_id with
  | some c, some m =>
    if c != 0 && env.channel_exists c && m != 0 then
      if env.fetch_ok c m && env.edit_ok c m then
        (s, [Effect.editMsg c m (lineup_text s.cog)])
      else
        ({ cog :=
            { s.cog with
              lineup_channel_id := some channel
              lineup_message_id := some s.fresh }
           fresh := s.fresh + 1 },
         [Effect.send channel s.fresh (lineup_text s.cog)])
    else (s, [])
  | _, _ => (s, [])

/-- Embeds `_update_lineup_message`. -/
def update_lineup_message (env : Env) (s0 : Sys) (channel : Nat) : Sys × List Effect :=
  let r := ensure_lineup_message env s0 channel
  let r2 := update_lineup_rest env r.1 channel
  (r2.1, r.2 ++ r2.2)

/-- A rich reaction event's actor (`discord.User | discord.Member`): the
member form carries a guild display name, the plain user only a username. -/
structure RichUser where
  id : Nat
  member_display : Option String
  username : String
deriving DecidableEq

/-- Display resolution in the rich handlers:
`user.display_name if isinstance(user, discord.Member) else user.name`. -/
def rich_display (u : RichUser) : String :=
  match u.member_display with
  | some d => d
  | none => u.username

/-- The parts of a rich `discord.Reaction` the handlers read. -/
structure RichReaction where
  emoji : EmojiObj
  channel_id : Nat
  message_id : Nat
deriving DecidableEq

/-- Text of the transient full-lineup notice in `on_reaction_add`. -/
def full_notice_text : String := "⚠️ The lineup is already full (max 5)."

/-- Embeds `on_reaction_add`: guard against the bot itself, a non-matching
emoji and non-anchor messages; then try to add, syncing the display on
success and sending the transient notice when the (unchanged) roster is at
capacity. -/
def on_reaction_add (botId : Nat) (env : Env) (s : Sys) (r : RichReaction)
    (u : RichUser) : Sys × List Effect :=
  if u.id == botId then (s, [])
  else if !emoji_matches r.emoji reaction_emoji then (s, [])
  else if !is_anchor s.cog r.channel_id r.message_id then (s, [])
  else
    let res := add_user s.cog u.id (rich_display u)
    if res.1 then update_lineup_message env { s with cog := res.2 } r.channel_id
    else if res.2.participants_order.length ≥ max_participants then
      (s, [Effect.notice r.channel_id full_notice_text])
    else (s, [])

/-- A raw reaction payload (`discord.RawReactionActionEvent`). -/
structure RawPayload where
  user_id : Nat
  channel_id : Nat
  message_id : Nat
  guild_id : Option Nat
  emoji : EmojiObj
deriving DecidableEq

/-- Display-name resolution in `on_raw_reaction_add`: the synthetic
`"user_<id>"` fallback, upgraded to the member's display name when the guild
id is truthy, the guild resolves and the member is cached. -/
def raw_display (env : Env) (p : RawPayload) : String :=
  match p.guild_id with
  | some g =>
    if g != 0 && env.guild_exists g then
      match env.member_display g p.user_id with
      | some d => d
      | none => "user_" ++ toString p.user_id
    else "user_" ++ toString p.user_id
  | none => "user_" ++ toString p.user_id

/-- Embeds `on_raw_reaction_add`: same guards as the rich form, then resolve
the display name, and only if the channel lookup succeeds try to add, syncing
on success; no notice is ever sent here. -/
def on_raw_reaction_add (botId : Nat) (env : Env) (s : Sys) (p : RawPayload) :
    Sys × List Effect :=
  if p.user_id == botId then (s, [])
  else if !emoji_matches p.emoji reaction_emoji then (s, [])
  else if !is_anchor s.cog p.channel_id p.message_id then (s, [])
  else if env.channel_exists p.channel_id then
    let res := add_user s.cog p.user_id (raw_display env p)
    if res.1 then update_lineup_message env { s with cog := res.2 } p.channel_id
    else (s, [])
  else (s, [])

/-- Embeds `on_reaction_remove`. -/
def on_reaction_remove (botId : Nat) (env : Env) (s : Sys) (r : RichReaction)
    (u : RichUser) : Sys × List Effect :=
  if u.id == botId then (s, [])
  else if !emoji_matches r.emoji reaction_emoji then (s, [])
  else if !is_anchor s.cog r.channel_id r.message_id then (s, [])
  else
    let res := remove_user s.cog u.id
    if res.1 then update_lineup_message env { s with cog := res.2 } r.channel_id
    else (s, [])

/-- Embeds `on_raw_reaction_remove`. -/
def on_raw_reaction_remove (botId : Nat) (env : Env) (s : Sys) (p : RawPayload) :
    Sys × List Effect :=
  if p.user_id == botId then (s, [])
  else if !emoji_matches p.emoji reaction_emoji then (s, [])
  else if !is_anchor s.cog p.channel_id p.message_id then (s, [])
  else if env.channel_exists p.channel_id then
    let res := remove_user s.cog p.user_id
    if res.1 then update_lineup_message env { s with cog := res.2 } p.channel_id
    else (s, [])
  else (s, [])

/-- The parts of an inbound `discord.Message` that `on_message` reads. -/
structure InboundMessage where
  author_id : Nat
  author_display : String
  channel_id : Nat
  id : Nat
  role_mention_ids : List Nat
deriving DecidableEq

/-- Python `set.add` on the anchor set: idempotent insertion. -/
def anchor_insert (l : List (Nat × Nat)) (cm : Nat × Nat) : List (Nat × Nat) :=
  if l.contains cm then l else l ++ [cm]

/-- Embeds `on_message`: skip the bot's own messages; on a qualifying role
mention, emit the bot's reaction — if that platform call raises, the `except`
clause swallows it and nothing else of the transition runs — otherwise record
the anchor, auto-add the author if there is room, and sync the display when
the author was added. -/
def on_message (botId : Nat) (env : Env) (s : Sys) (m : InboundMessage) :
    Sys × List Effect :=
  if m.author_id == botId then (s, [])
  else if m.role_mention_ids.any (fun rid => target_role_ids.contains rid) then
    if env.add_reaction_ok m.channel_id m.id then
      let s1 : Sys :=
        { s with
          cog :=
            { s.cog with
              anchor_messages := anchor_insert s.cog.anchor_messages (m.channel_id, m.id) } }
      let res := add_user s1.cog m.author_id m.author_display
      if res.1 then
        let upd := update_lineup_message env { s1 with cog := res.2 } m.channel_id
        (upd.1, [Effect.addReaction m.channel_id m.id] ++ upd.2)
      else ({ s1 with cog := res.2 }, [Effect.addReaction m.channel_id m.id])
    else (s, [Effect.addReaction m.channel_id m.id])
  else (s, [])

/-- Embeds `_remove_bots_reaction_on`: a pure sequence of platform calls that
never changes the cog state — bail out silently when the channel is gone or
the fetch raises, then attempt one retraction per matching reaction on the
fetched message, each failure swallowed independently. -/
def remove_bots_reaction_on (env : Env) (channel_id message_id : Nat) : List Effect :=
  if env.channel_exists channel_id then
    if env.fetch_ok channel_id message_id then
      ((env.message_reactions channel_id message_id).filter
        (fun e => emoji_matches e reaction_emoji)).map
        (fun _ => Effect.removeReaction channel_id message_id)
    else []
  else []

/-- Text of the `/clear` confirmation. -/
def clear_confirm_text : String := "🧹 Lineup cleared. Old mentions are no longer active."

/-- Embeds the `/clear` slash command: defer the response, empty the roster,
snapshot and empty the anchor set, retract the bot's reaction on every
snapshot entry, sync the display into the invoking channel, and finalise the
response with the confirmation text. -/
def clear_command (env : Env) (s0 : Sys) (interaction_channel : Nat) : Sys × List Effect :=
  let s1 : Sys :=
    { s0 with cog := { s0.cog with participants_order := [], participants_names := [] } }
  let anchors := s1.cog.anchor_messages
  let s2 : Sys := { s1 with cog := { s1.cog with anchor_messages := [] } }
  let retractEffs :=
    anchors.foldr (fun cm acc => remove_bots_reaction_on env cm.1 cm.2 ++ acc) []
  let upd := update_lineup_message env s2 interaction_channel
  (upd.1, [Effect.deferResponse] ++ retractEffs ++ upd.2 ++ [Effect.confirm clear_confirm_text])

lemma update_lineup_message_eq (env : Env) (s : Sys) (channel : Nat) :
    update_lineup_message env s channel =
      ((update_lineup_rest env (ensure_lineup_message env s channel).1 channel).1,
       (ensure_lineup_message env s channel).2 ++
         (update_lineup_rest env (ensure_lineup_message env s channel).1 channel).2) := rfl

lemma add_user_fail_state (c : CogState) (uid : Nat) (d : String)
    (h : (add_user c uid d).1 = false) : (add_user c uid d).2 = c := by
  by_cases hc : names_contains c.participants_names uid = true
  · simp [add_user, hc]
  · by_cases hl : c.participants_order.length ≥ max_participants
    · simp [add_user, hc, hl]
    · simp [add_user, hc, hl] at h

lemma lineup_text_congr (a b : CogState)
    (h1 : a.participants_order = b.participants_order)
    (h2 : a.participants_names = b.participants_names) :
    lineup_text a = lineup_text b := by
  simp [lineup_text, lineup_header, lineup_body, h1, h2]

lemma ensure_spec (env : Env) (s : Sys) (channel : Nat) :
    (ensure_lineup_message env s channel = (s, []) ∧
      ∃ c m, s.cog.lineup_channel_id = some c ∧ s.cog.lineup_message_id = some m ∧
        (c != 0 && m != 0 && env.channel_exists c && env.fetch_ok c m) = true) ∨
    (ensure_lineup_message env s channel =
      ({ cog :=
          { s.cog with
            lineup_channel_id := some channel
            lineup_message_id := some s.fresh }
         fresh := s.fresh + 1 },
       [Effect.send channel s.fresh (lineup_text s.cog)]) ∧
      ∀ c m, s.cog.lineup_channel_id = some c → s.cog.lineup_message_id = some m →
        (c != 0 && m != 0 && env.channel_exists c && env.fetch_ok c m) = false) := by
  unfold ensure_lineup_message
  split
  next h =>
    left
    refine ⟨rfl, ?_⟩
    cases hc : s.cog.lineup_channel_id with
    | none => rw [hc] at h; simp at h
    | some c =>
      cases hm : s.cog.lineup_message_id with
      | none => rw [hc, hm] at h; simp at h
      | some m =>
        rw [hc, hm] at h
        exact ⟨c, m, rfl, rfl, h⟩
  next h =>
    right
    refine ⟨rfl, ?_⟩
    intro c m hc hm
    rw [hc, hm] at h
    exact Bool.not_eq_true _ |>.mp h

lemma rest_roster_fields (env : Env) (s : Sys) (channel : Nat) :
    (update_lineup_rest env s channel).1.cog.participants_order = s.cog.participants_order ∧
    (update_lineup_rest env s channel).1.cog.participants_names = s.cog.participants_names ∧
    (update_lineup_rest env s channel).1.cog.anchor_messages = s.cog.anchor_messages := by
  unfold update_lineup_rest
  split
  · split
    · split
      · exact ⟨rfl, rfl, rfl⟩
      · exact ⟨rfl, rfl, rfl⟩
    · exact ⟨rfl, rfl, rfl⟩
  · exact ⟨rfl, rfl, rfl⟩

lemma ensure_roster_fields (env : Env) (s : Sys) (channel : Nat) :
    (ensure_lineup_message env s channel).1.cog.participants_order = s.cog.participants_order ∧
    (ensure_lineup_message env s channel).1.cog.participants_names = s.cog.participants_names ∧
    (ensure_lineup_message env s channel).1.cog.anchor_messages = s.cog.anchor_messages := by
  unfold ensure_lineup_message
  split
  · exact ⟨rfl, rfl, rfl⟩
  · exact ⟨rfl, rfl, rfl⟩

lemma update_roster_fields (env : Env) (s : Sys) (channel : Nat) :
    (update_lineup_message env s channel).1.cog.participants_order = s.cog.participants_order ∧
    (update_lineup_message env s channel).1.cog.participants_names = s.cog.participants_names ∧
    (update_lineup_message env s channel).1.cog.anchor_messages = s.cog.anchor_messages := by
  have h1 := ensure_roster_fields env s channel
  have h2 := rest_roster_fields env (ensure_lineup_message env s channel).1 channel
  rw [update_lineup_message_eq]
  exact ⟨h2.1.trans h1.1, h2.2.1.trans h1.2.1, h2.2.2.trans h1.2.2⟩

lemma update_effect_send_or_edit (env : Env) (s : Sys) (channel : Nat) :
    ∀ e ∈ (update_lineup_message env s channel).2,
      (∃ c m t, e = Effect.send c m t) ∨ (∃ c m t, e = Effect.editMsg c m t) := by
  intro e he
  rw [update_lineup_message_eq] at he
  rcases List.mem_append.mp he with h | h
  · unfold ensure_lineup_message at h
    split at h
    · simp at h
    · simp at h
      subst h
      exact Or.inl ⟨_, _, _, rfl⟩
  · unfold update_lineup_rest at h
    split at h
    · split at h
      · split at h
        · simp at h
          subst h
          exact Or.inr ⟨_, _, _, rfl⟩
        · simp at h
          subst h
          exact Or.inl ⟨_, _, _, rfl⟩
      · simp at h
    · simp at h

lemma update_lineup_rest_some (env : Env) (s : Sys) (channel : Nat) (c m : Nat)
    (hc : s.cog.lineup_channel_id = some c) (hm : s.cog.lineup_message_id = some m) :
    update_lineup_rest env s channel =
      (if (c != 0 && env.channel_exists c && m != 0) = true then
        if (env.fetch_ok c m && env.edit_ok c m) = true then
          (s, [Effect.editMsg c m (lineup_text s.cog)])
        else
          ({ cog :=
              { s.cog with
                lineup_channel_id := some channel
                lineup_message_id := some s.fresh }
             fresh := s.fresh + 1 },
           [Effect.send channel s.fresh (lineup_text s.cog)])
      else (s, [])) := by
  unfold update_lineup_rest
  rw [hc, hm]

lemma update_has_sync_effect (env : Env) (s : Sys) (channel : Nat) :
    ∃ cm mm,
      Effect.send cm mm (lineup_text s.cog) ∈ (update_lineup_message env s channel).2 ∨
      Effect.editMsg cm mm (lineup_text s.cog) ∈ (update_lineup_message env s channel).2 := by
  rcases ensure_spec env s channel with ⟨heq, c, m, hc, hm, hcond⟩ | ⟨heq, _⟩
  · rw [update_lineup_message_eq, heq]
    simp only [Bool.and_eq_true] at hcond
    obtain ⟨⟨⟨hcz, hmz⟩, hex⟩, hfe⟩ := hcond
    rw [update_lineup_rest_some env s channel c m hc hm]
    rw [if_pos (by simp [hcz, hmz, hex])]
    by_cases hedit : env.edit_ok c m = true
    · rw [if_pos (by simp [hfe, hedit])]
      exact ⟨c, m, Or.inr (by simp)⟩
    · rw [if_neg (by simp [hedit])]
      exact ⟨channel, s.fresh, Or.inl (by simp)⟩
  · rw [update_lineup_message_eq, heq]
    exact ⟨channel, s.fresh, Or.inl (by simp)⟩

/-- C2: a reaction event — rich or raw, added or removed — on a (channel,
message) pair that is not an anchor leaves the whole system untouched and
performs no platform call, regardless of whether the emoji matches. -/
theorem non_anchor_events_inert (botId : Nat) (env : Env) (s : Sys)
    (r : RichReaction) (u : RichUser) (p : RawPayload) :
    (is_anchor s.cog r.channel_id r.message_id = false →
      on_reaction_add botId env s r u = (s, []) ∧
      on_reaction_remove botId env s r u = (s, [])) ∧
    (is_anchor s.cog p.channel_id p.message_id = false →
      on_raw_reaction_add botId env s p = (s, []) ∧
      on_raw_reaction_remove botId env s p = (s, [])) := by
  constructor
  · intro h
    constructor
    · simp [on_reaction_add, h]
    · simp [on_reaction_remove, h]
  · intro h
    constructor
    · simp [on_raw_reaction_add, h]
    · simp [on_raw_reaction_remove, h]

/-- A platform environment in which every call succeeds (no cached members,
no reactions on fetched messages). -/
def env_ok : Env :=
  { channel_exists := fun _ => true
    fetch_ok := fun _ _ => true
    edit_ok := fun _ _ => true
    guild_exists := fun _ => true
    member_display := fun _ _ => none
    add_reaction_ok := fun _ _ => true
    message_reactions := fun _ _ => [] }

/-- The configured unicode check-mark as an observed emoji object. -/
def check_emoji : EmojiObj := { id := none, name := some "✅", strForm := "✅" }

/-- A system whose anchor set is empty (the sample roster, no anchors). -/
def sys_no_anchor : Sys := { cog := sample_roster, fresh := 100 }

/-- A rich reaction event on channel 10, message 20, with the matching emoji. -/
def rich_ev : RichReaction := { emoji := check_emoji, channel_id := 10, message_id := 20 }

/-- A rich member actor with id 3. -/
def rich_user3 : RichUser := { id := 3, member_display := some "carol", username := "carol" }

/-- A raw payload for user 3 on channel 10, message 20, matching emoji. -/
def raw_pay3 : RawPayload :=
  { user_id := 3, channel_id := 10, message_id := 20, guild_id := some 1, emoji := check_emoji }

/-- Witness for C2: with no anchors recorded, a matching-emoji reaction add
(rich and raw) changes nothing. -/
theorem non_anchor_events_inert_witness :
    on_reaction_add 99 env_ok sys_no_anchor rich_ev rich_user3 = (sys_no_anchor, []) ∧
    on_raw_reaction_add 99 env_ok sys_no_anchor raw_pay3 = (sys_no_anchor, []) :=
  ⟨((non_anchor_events_inert 99 env_ok sys_no_anchor rich_ev rich_user3 raw_pay3).1
      (by decide)).1,
   ((non_anchor_events_inert 99 env_ok sys_no_anchor rich_ev rich_user3 raw_pay3).2
      (by decide)).1⟩

/-- C9: when the raw handlers' channel lookup finds nothing, the event is
dropped in its entirety — no roster change, no display update, no effect —
even if every guard before it would pass. -/
theorem raw_channel_lookup_failure_inert (botId : Nat) (env : Env) (s : Sys)
    (p : RawPayload) (h : env.channel_exists p.channel_id = false) :
    on_raw_reaction_add botId env s p = (s, []) ∧
    on_raw_reaction_remove botId env s p = (s, []) := by
  constructor
  · simp [on_raw_reaction_add, h]
  · simp [on_raw_reaction_remove, h]

/-- An environment whose channel lookups always fail. -/
def env_gone : Env :=
  { env_ok with channel_exists := fun _ => false }

/-- A system holding (10, 20) as an anchor, so the raw event would otherwise
mutate the roster. -/
def sys_anchored : Sys :=
  { cog := { sample_roster with anchor_messages := [(10, 20)] }, fresh := 100 }

/-- Witness for C9: with the channel lookup failing, the raw add on an anchor
with a matching emoji and a non-bot actor leaves everything unchanged. -/
theorem raw_channel_lookup_failure_inert_witness :
    env_gone.channel_exists raw_pay3.channel_id = false ∧
    on_raw_reaction_add 99 env_gone sys_anchored raw_pay3 = (sys_anchored, []) :=
  ⟨rfl, (raw_channel_lookup_failure_inert 99 env_gone sys_anchored raw_pay3 rfl).1⟩

/-- C10: in the message handler, when the bot's reaction emission raises, the
`except` clause swallows the failure and the whole transition is skipped —
the pair is not promoted to an anchor, the author is not added, the display
is not touched; only the failed reaction attempt happened. -/
theorem reaction_emission_failure_skips (botId : Nat) (env : Env) (s : Sys)
    (m : InboundMessage)
    (h1 : (m.author_id == botId) = false)
    (h2 : m.role_mention_ids.any (fun rid => target_role_ids.contains rid) = true)
    (h3 : env.add_reaction_ok m.channel_id m.id = false) :
    on_message botId env s m = (s, [Effect.addReaction m.channel_id m.id]) := by
  simp [on_message, h1, h2, h3]
  simpa using h2

/-- An environment in which emitting a reaction raises. -/
def env_react_fail : Env :=
  { env_ok with add_reaction_ok := fun _ _ => false }

/-- A non-bot message mentioning a configured target role. -/
def msg_mention : InboundMessage :=
  { author_id := 7
    author_display := "dave"
    channel_id := 10
    id := 21
    role_mention_ids := [776328568036392972] }

/-- Witness for C10: the qualifying message with a failing reaction emission
leaves the system unchanged. -/
theorem reaction_emission_failure_skips_witness :
    on_message 99 env_react_fail sys_no_anchor msg_mention =
      (sys_no_anchor, [Effect.addReaction 10 21]) :=
  reaction_emission_failure_skips 99 env_react_fail sys_no_anchor msg_mention
    (by decide) (by decide) rfl

lemma on_reaction_add_pass (botId : Nat) (env : Env) (s : Sys) (r : RichReaction)
    (u : RichUser)
    (hb : (u.id == botId) = false)
    (he : emoji_matches r.emoji reaction_emoji = true)
    (ha : is_anchor s.cog r.channel_id r.message_id = true) :
    on_reaction_add botId env s r u =
      (if (add_user s.cog u.id (rich_display u)).1 then
        update_lineup_message env
          { s with cog := (add_user s.cog u.id (rich_display u)).2 } r.channel_id
      else if (add_user s.cog u.id (rich_display u)).2.participants_order.length ≥
          max_participants then
        (s, [Effect.notice r.channel_id full_notice_text])
      else (s, [])) := by
  simp [on_reaction_add, hb, he, ha]

lemma on_raw_reaction_add_pass (botId : Nat) (env : Env) (s : Sys) (p : RawPayload)
    (hb : (p.user_id == botId) = false)
    (he : emoji_matches p.emoji reaction_emoji = true)
    (ha : is_anchor s.cog p.channel_id p.message_id = true)
    (hch : env.channel_exists p.channel_id = true) :
    on_raw_reaction_add botId env s p =
      (if (add_user s.cog p.user_id (raw_display env p)).1 then
        update_lineup_message env
          { s with cog := (add_user s.cog p.user_id (raw_display env p)).2 } p.channel_id
      else (s, [])) := by
  simp [on_raw_reaction_add, hb, he, ha, hch]

/-- C8 (amended): on the rich reaction-add path the transient full-lineup
notice is sent exactly when all three guards pass, tryAdd fails, and the
roster is at capacity — regardless of whether the failure was for capacity or
because the user was already present; the raw path never sends it. -/
theorem full_notice_exactly_when_at_capacity (botId : Nat) (env : Env) (s : Sys)
    (r : RichReaction) (u : RichUser) (p : RawPayload) :
    (Effect.notice r.channel_id full_notice_text ∈ (on_reaction_add botId env s r u).2 ↔
      ((u.id == botId) = false ∧ emoji_matches r.emoji reaction_emoji = true ∧
        is_anchor s.cog r.channel_id r.message_id = true ∧
        (add_user s.cog u.id (rich_display u)).1 = false ∧
        s.cog.participants_order.length ≥ max_participants)) ∧
    (∀ ch t, Effect.notice ch t ∉ (on_raw_reaction_add botId env s p).2) := by
  constructor
  · cases hb : u.id == botId with
    | true =>
      constructor
      · intro hmem
        rw [show on_reaction_add botId env s r u = (s, []) from by
          simp [on_reaction_add, hb]] at hmem
        simp at hmem
      · rintro ⟨hb', _⟩
        exact Bool.noConfusion hb'
    | false =>
      cases he : emoji_matches r.emoji reaction_emoji with
      | false =>
        constructor
        · intro hmem
          rw [show on_reaction_add botId env s r u = (s, []) from by
            simp [on_reaction_add, he]] at hmem
          simp at hmem
        · rintro ⟨_, he', _⟩
          exact Bool.noConfusion he'
      | true =>
        cases ha : is_anchor s.cog r.channel_id r.message_id with
        | false =>
          constructor
          · intro hmem
            rw [show on_reaction_add botId env s r u = (s, []) from by
              simp [on_reaction_add, ha]] at hmem
            simp at hmem
          · rintro ⟨_, _, ha', _⟩
            exact Bool.noConfusion ha'
        | true =>
          cases hres : (add_user s.cog u.id (rich_display u)).1 with
          | true =>
            constructor
            · intro hmem
              rw [on_reaction_add_pass botId env s r u hb he ha, if_pos hres] at hmem
              rcases update_effect_send_or_edit env
                  { s with cog := (add_user s.cog u.id (rich_display u)).2 }
                  r.channel_id _ hmem with ⟨c', m', t', hE⟩ | ⟨c', m', t', hE⟩ <;>
                exact Effect.noConfusion hE
            · rintro ⟨_, _, _, h4, _⟩
              exact Bool.noConfusion h4
          | false =>
            have hst := add_user_fail_state s.cog u.id (rich_display u) hres
            by_cases hlen :
                s.cog.participants_order.length ≥ max_participants
            · constructor
              · intro _
                exact ⟨rfl, rfl, rfl, rfl, hlen⟩
              · intro _
                rw [on_reaction_add_pass botId env s r u hb he ha,
                  if_neg (by simp [hres]), hst, if_pos hlen]
                simp
            · constructor
              · intro hmem
                rw [on_reaction_add_pass botId env s r u hb he ha,
                  if_neg (by simp [hres]), hst, if_neg hlen] at hmem
                simp at hmem
              · rintro ⟨_, _, _, _, hlen'⟩
                exact absurd hlen' hlen
  · intro ch t hmem
    cases hb : p.user_id == botId with
    | true =>
      rw [show on_raw_reaction_add botId env s p = (s, []) from by
        simp [on_raw_reaction_add, hb]] at hmem
      simp at hmem
    | false =>
      cases he : emoji_matches p.emoji reaction_emoji with
      | false =>
        rw [show on_raw_reaction_add botId env s p = (s, []) from by
          simp [on_raw_reaction_add, he]] at hmem
        simp at hmem
      | true =>
        cases ha : is_anchor s.cog p.channel_id p.message_id with
        | false =>
          rw [show on_raw_reaction_add botId env s p = (s, []) from by
            simp [on_raw_reaction_add, ha]] at hmem
          simp at hmem
        | true =>
          cases hch : env.channel_exists p.channel_id with
          | false =>
            rw [(raw_channel_lookup_failure_inert botId env s p hch).1] at hmem
            simp at hmem
          | true =>
            cases hres : (add_user s.cog p.user_id (raw_display env p)).1 with
            | false =>
              rw [on_raw_reaction_add_pass botId env s p hb he ha hch,
                if_neg (by simp [hres])] at hmem
              simp at hmem
            | true =>
              rw [on_raw_reaction_add_pass botId env s p hb he ha hch,
                if_pos hres] at hmem
              rcases update_effect_send_or_edit env
                  { s with cog := (add_user s.cog p.user_id (raw_display env p)).2 }
                  p.channel_id _ hmem with ⟨c', m', t', hE⟩ | ⟨c', m', t', hE⟩ <;>
                exact Effect.noConfusion hE

/-- A full five-member roster that already contains user 1, with (10, 20)
recorded as an anchor. -/
def sys_full : Sys :=
  { cog :=
      { participants_order := [1, 2, 3, 4, 5]
        participants_names := [(1, "a"), (2, "b"), (3, "c"), (4, "d"), (5, "e")]
        lineup_channel_id := none
        lineup_message_id := none
        anchor_messages := [(10, 20)] }
    fresh := 100 }

/-- The already-present member, user 1, as a rich actor. -/
def rich_user1 : RichUser := { id := 1, member_display := some "a", username := "a" }

/-- C8 counterexample: user 1 is already present, so tryAdd fails for the
presence reason and not because the roster is full — yet the rich handler
still sends the full-lineup notice, because its capacity test looks at the
roster length rather than at the reason the add failed. -/
theorem full_notice_counterexample :
    names_contains sys_full.cog.participants_names 1 = true ∧
    Effect.notice 10 full_notice_text ∈
      (on_reaction_add 99 env_ok sys_full rich_ev rich_user1).2 := by
  constructor
  · decide
  · decide

/-- Number of successful edit calls among a list of effects. -/
def edit_count (es : List Effect) : Nat :=
  (es.filter (fun e => match e with
    | Effect.editMsg _ _ _ => true
    | _ => false)).length

/-- The (channel, message) identities of the messages a list of effects sent
or successfully edited. -/
def touched (es : List Effect) : List (Nat × Nat) :=
  es.filterMap (fun e => match e with
    | Effect.send c m _ => some (c, m)
    | Effect.editMsg c m _ => some (c, m)
    | _ => none)

/-- The state after send-and-record: the display identity points at the
freshly sent message in the target channel. -/
def recorded_sys (s : Sys) (channel : Nat) : Sys :=
  { cog :=
      { s.cog with
        lineup_channel_id := some channel
        lineup_message_id := some s.fresh }
    fresh := s.fresh + 1 }

/-- C4: the display-sync contract, on a platform where the target channel
resolves and a freshly sent message can be fetched and edited.  Per call the
sync edits at most one message and the messages it sends or edits are one
single identity; when fetching the recorded display message fails it sends a
new lineup message and records that message's identity; and when the fetch
succeeds but the edit itself fails it falls back to send-and-record instead
of propagating the failure. -/
theorem update_lineup_message_contract (env : Env) (s : Sys) (channel : Nat)
    (hch : (channel != 0) = true)
    (hex : env.channel_exists channel = true)
    (hfetch : env.fetch_ok channel s.fresh = true)
    (hedit : env.edit_ok channel s.fresh = true)
    (hfresh : (s.fresh != 0) = true) :
    edit_count (update_lineup_message env s channel).2 ≤ 1 ∧
    (touched (update_lineup_message env s channel).2).dedup.length = 1 ∧
    (∀ c m, s.cog.lineup_channel_id = some c → s.cog.lineup_message_id = some m →
      (c != 0 && m != 0 && env.channel_exists c && env.fetch_ok c m) = false →
      Effect.send channel s.fresh (lineup_text s.cog) ∈
        (update_lineup_message env s channel).2 ∧
      (update_lineup_message env s channel).1.cog.lineup_channel_id = some channel ∧
      (update_lineup_message env s channel).1.cog.lineup_message_id = some s.fresh) ∧
    (∀ c m, s.cog.lineup_channel_id = some c → s.cog.lineup_message_id = some m →
      (c != 0) = true → (m != 0) = true → env.channel_exists c = true →
      env.fetch_ok c m = true → env.edit_ok c m = false →
      (update_lineup_message env s channel).2 =
        [Effect.send channel s.fresh (lineup_text s.cog)] ∧
      (update_lineup_message env s channel).1.cog.lineup_channel_id = some channel ∧
      (update_lineup_message env s channel).1.cog.lineup_message_id = some s.fresh) := by
  rcases ensure_spec env s channel with ⟨heq, c, m, hc, hm, hcond⟩ | ⟨heq, hfail⟩
  · have h1 : (ensure_lineup_message env s channel).1 = s := by rw [heq]
    have h2 : (ensure_lineup_message env s channel).2 = ([] : List Effect) := by rw [heq]
    have hrest := update_lineup_rest_some env s channel c m hc hm
    have hcond' := hcond
    simp only [Bool.and_eq_true] at hcond'
    obtain ⟨⟨⟨hcz, hmz⟩, hex2⟩, hfe2⟩ := hcond'
    have hguard : (c != 0 && env.channel_exists c && m != 0) = true := by
      simp [hcz, hmz, hex2]
    by_cases hedit2 : env.edit_ok c m = true
    · have hupd : update_lineup_message env s channel =
          (s, [Effect.editMsg c m (lineup_text s.cog)]) := by
        rw [update_lineup_message_eq, h1, h2, hrest, if_pos hguard,
          if_pos (by simp [hfe2, hedit2])]
        rfl
      rw [hupd]
      refine ⟨by simp [edit_count], by simp [touched], ?_, ?_⟩
      · intro c' m' hc' hm' hfl
        rw [hc'] at hc
        rw [hm'] at hm
        injection hc with hcc
        injection hm with hmm
        subst hcc; subst hmm
        rw [hcond] at hfl
        exact Bool.noConfusion hfl
      · intro c' m' hc' hm' _ _ _ _ hedit'
        rw [hc'] at hc
        rw [hm'] at hm
        injection hc with hcc
        injection hm with hmm
        subst hcc; subst hmm
        rw [hedit2] at hedit'
        exact Bool.noConfusion hedit'
    · have hupd : update_lineup_message env s channel =
          (recorded_sys s channel,
           [Effect.send channel s.fresh (lineup_text s.cog)]) := by
        rw [update_lineup_message_eq, h1, h2, hrest, if_pos hguard,
          if_neg (by simp [hedit2])]
        rfl
      rw [hupd]
      refine ⟨by simp [edit_count], by simp [touched], ?_, ?_⟩
      · intro c' m' hc' hm' _
        exact ⟨by simp, rfl, rfl⟩
      · intro c' m' hc' hm' _ _ _ _ _
        exact ⟨rfl, rfl, rfl⟩
  · have h1 : (ensure_lineup_message env s channel).1 = recorded_sys s channel := by
      rw [heq]
      rfl
    have h2 : (ensure_lineup_message env s channel).2 =
        [Effect.send channel s.fresh (lineup_text s.cog)] := by rw [heq]
    have hrest := update_lineup_rest_some env (recorded_sys s channel) channel
      channel s.fresh rfl rfl
    have hguard : (channel != 0 && env.channel_exists channel && s.fresh != 0) = true := by
      simp [hch, hex, hfresh]
    have hupd : update_lineup_message env s channel =
        (recorded_sys s channel,
         [Effect.send channel s.fresh (lineup_text s.cog),
          Effect.editMsg channel s.fresh (lineup_text (recorded_sys s channel).cog)]) := by
      rw [update_lineup_message_eq, h1, h2, hrest, if_pos hguard,
        if_pos (by simp [hfetch, hedit])]
      rfl
    rw [hupd]
    refine ⟨by simp [edit_count], ?_, ?_, ?_⟩
    · have htch : touched
          [Effect.send channel s.fresh (lineup_text s.cog),
           Effect.editMsg channel s.fresh (lineup_text (recorded_sys s channel).cog)] =
          [(channel, s.fresh), (channel, s.fresh)] := by
        simp [touched]
      rw [htch, List.dedup_cons_of_mem (List.mem_singleton.mpr rfl)]
      simp
    · intro c' m' hc' hm' _
      exact ⟨by simp, rfl, rfl⟩
    · intro c' m' hc' hm' hcz' hmz' hex' hfe' _
      have hcontra := hfail c' m' hc' hm'
      rw [hcz', hmz', hex', hfe'] at hcontra
      exact Bool.noConfusion hcontra

/-- A system with a recorded display message (channel 10, message 50). -/
def sys_stored : Sys :=
  { cog :=
      { sample_roster with
        lineup_channel_id := some 10
        lineup_message_id := some 50 }
    fresh := 100 }

/-- An environment where editing the stored display message (10, 50) raises
but a freshly sent message can be fetched and edited. -/
def env_edit_fail : Env :=
  { env_ok with edit_ok := fun c m => !(c == 10 && m == 50) }

/-- Witness for C4 at a concrete input: the stored message's edit fails, so
the sync performs exactly one send (no edit) and records the new identity. -/
theorem update_lineup_message_contract_witness :
    edit_count (update_lineup_message env_edit_fail sys_stored 10).2 ≤ 1 ∧
    (touched (update_lineup_message env_edit_fail sys_stored 10).2).dedup.length = 1 ∧
    (update_lineup_message env_edit_fail sys_stored 10).2 =
      [Effect.send 10 100 (lineup_text sys_stored.cog)] ∧
    (update_lineup_message env_edit_fail sys_stored 10).1.cog.lineup_message_id =
      some 100 :=
  have h := update_lineup_message_contract env_edit_fail sys_stored 10
    (by decide) rfl rfl rfl (by decide)
  ⟨h.1, h.2.1,
    (h.2.2.2 10 50 rfl rfl (by decide) (by decide) rfl rfl rfl).1,
    (h.2.2.2 10 50 rfl rfl (by decide) (by decide) rfl rfl rfl).2.2⟩

lemma mem_remove_bots (env : Env) (c m : Nat) (e : Effect) :
    e ∈ remove_bots_reaction_on env c m ↔
      (e = Effect.removeReaction c m ∧ env.channel_exists c = true ∧
        env.fetch_ok c m = true ∧
        ∃ emo ∈ env.message_reactions c m, emoji_matches emo reaction_emoji = true) := by
  unfold remove_bots_reaction_on
  split
  next hch =>
    split
    next hfe =>
      simp only [List.mem_map, List.mem_filter]
      constructor
      · rintro ⟨emo, ⟨hmem, hmatch⟩, rfl⟩
        exact ⟨rfl, hch, hfe, emo, hmem, hmatch⟩
      · rintro ⟨rfl, _, _, emo, hmem, hmatch⟩
        exact ⟨emo, ⟨hmem, hmatch⟩, rfl⟩
    next hfe =>
      simp only [List.not_mem_nil, false_iff, not_and]
      intro _ _ hcontra
      exact absurd hcontra hfe
  next hch =>
    simp only [List.not_mem_nil, false_iff, not_and]
    intro _ hcontra
    exact absurd hcontra hch

lemma mem_retract_foldr (env : Env) (l : List (Nat × Nat)) (e : Effect) :
    e ∈ l.foldr (fun cm acc => remove_bots_reaction_on env cm.1 cm.2 ++ acc) [] ↔
      ∃ cm ∈ l, e ∈ remove_bots_reaction_on env cm.1 cm.2 := by
  induction l with
  | nil => simp
  | cons hd tl ih => simp [List.foldr_cons, List.mem_append, ih]

/-- The system state right after `/clear` empties the roster and the anchor
set, before the display update runs. -/
def cleared_sys (s : Sys) : Sys :=
  { cog :=
      { s.cog with
        participants_order := []
        participants_names := []
        anchor_messages := [] }
    fresh := s.fresh }

lemma clear_command_eq (env : Env) (s : Sys) (channel : Nat) :
    clear_command env s channel =
      ((update_lineup_message env (cleared_sys s) channel).1,
       [Effect.deferResponse] ++
         (s.cog.anchor_messages.foldr
            (fun cm acc => remove_bots_reaction_on env cm.1 cm.2 ++ acc) []) ++
         (update_lineup_message env (cleared_sys s) channel).2 ++
         [Effect.confirm clear_confirm_text]) := rfl

lemma cleared_lineup_text (s : Sys) :
    lineup_text (cleared_sys s).cog = empty_lineup_text := by
  simp [cleared_sys, lineup_text]

/-- C3: the reset contract — after `/clear` both the roster and the anchor
registry are empty; the retraction loop runs over exactly the anchors present
immediately before the clear (every such anchor whose channel resolves, whose
message fetch succeeds and which still carries a matching reaction gets a
retraction attempt, whatever the environment does on the other anchors, and
nothing else ever gets one); the display is synced to the now-empty roster;
and the deferred response is finalised with the confirmation text. -/
theorem clear_command_contract (env : Env) (s : Sys) (channel : Nat) :
    (clear_command env s channel).1.cog.participants_order = [] ∧
    (clear_command env s channel).1.cog.participants_names = [] ∧
    (clear_command env s channel).1.cog.anchor_messages = [] ∧
    (∀ c m, (c, m) ∈ s.cog.anchor_messages →
      env.channel_exists c = true → env.fetch_ok c m = true →
      (∃ emo ∈ env.message_reactions c m, emoji_matches emo reaction_emoji = true) →
      Effect.removeReaction c m ∈ (clear_command env s channel).2) ∧
    (∀ c m, Effect.removeReaction c m ∈ (clear_command env s channel).2 →
      (c, m) ∈ s.cog.anchor_messages) ∧
    (∃ cm mm,
      Effect.send cm mm empty_lineup_text ∈ (clear_command env s channel).2 ∨
      Effect.editMsg cm mm empty_lineup_text ∈ (clear_command env s channel).2) ∧
    Effect.confirm clear_confirm_text ∈ (clear_command env s channel).2 ∧
    Effect.deferResponse ∈ (clear_command env s channel).2 := by
  have hfields := update_roster_fields env (cleared_sys s) channel
  refine ⟨?_, ?_, ?_, ?_, ?_, ?_, ?_, ?_⟩
  · rw [clear_command_eq]
    exact hfields.1
  · rw [clear_command_eq]
    exact hfields.2.1
  · rw [clear_command_eq]
    exact hfields.2.2
  · intro c m hmem hch hfe hemo
    rw [clear_command_eq]
    have hin : Effect.removeReaction c m ∈
        s.cog.anchor_messages.foldr
          (fun cm acc => remove_bots_reaction_on env cm.1 cm.2 ++ acc) [] :=
      (mem_retract_foldr env _ _).mpr
        ⟨(c, m), hmem, (mem_remove_bots env c m _).mpr ⟨rfl, hch, hfe, hemo⟩⟩
    simp only [List.mem_append]
    exact Or.inl (Or.inl (Or.inr hin))
  · intro c m hmem
    rw [clear_command_eq] at hmem
    simp only [List.mem_append] at hmem
    rcases hmem with ((hdef | hret) | hupd) | hcon
    · simp at hdef
    · obtain ⟨cm, hcm, hin⟩ := (mem_retract_foldr env _ _).mp hret
      obtain ⟨heq, -, -, -⟩ := (mem_remove_bots env cm.1 cm.2 _).mp hin
      injection heq with h1 h2
      rw [h1, h2]
      simpa using hcm
    · rcases update_effect_send_or_edit env (cleared_sys s) channel _ hupd with
        ⟨c', m', t', hE⟩ | ⟨c', m', t', hE⟩ <;> exact Effect.noConfusion hE
    · simp at hcon
  · obtain ⟨cm, mm, hor⟩ := update_has_sync_effect env (cleared_sys s) channel
    rw [cleared_lineup_text] at hor
    refine ⟨cm, mm, ?_⟩
    rw [clear_command_eq]
    rcases hor with h | h
    · exact Or.inl (by simp only [List.mem_append]; exact Or.inl (Or.inr h))
    · exact Or.inr (by simp only [List.mem_append]; exact Or.inl (Or.inr h))
  · rw [clear_command_eq]
    simp
  · rw [clear_command_eq]
    simp
